import Mathlib

/-!
Shallow embedding of the check-orchestration core of the urlchecker
repository (the exporter-mode `main.go` and package `metrics`).

Conventions of the embedding:
* Go machine integers (`int`, `int64`) are modelled as `Int`.
* `time.Duration` and `time.Time` values are modelled as `Int` (nanoseconds
  since an arbitrary epoch); the Go zero value of `time.Time` is `0`.
* Every operation that calls `time.Now()` or `time.Since(t)` receives the
  current wall-clock instant `now : Int` explicitly; `time.Since(t)` is
  `now - t`.
* Go maps of pointers (`map[string]*URLState`, `map[string]*CircuitBreaker`)
  are modelled as association lists from the string key to an index (the
  "pointer") into an explicit heap list, so that pointer sharing and
  in-place mutation are represented faithfully.
* `net.DialTimeout` is modelled by an oracle `dial : Nat -> DialStep` giving,
  for the k-th dial performed, its error (`none` = success) and its duration.
* `rand.Float64`-based jitter is modelled by an oracle `jit : Nat -> Int`
  giving the jitter summand for each attempt.
-/

namespace Urlchecker

/-- `CircuitBreakerState` from main.go; the `iota` order is
`CircuitClosed = 0, CircuitHalfOpen = 1, CircuitOpen = 2`. -/
inductive CircuitBreakerState where
  | CircuitClosed
  | CircuitHalfOpen
  | CircuitOpen
deriving DecidableEq, Repr, Inhabited

open CircuitBreakerState

/-- The Go `int(state)` conversion used by `metrics.RecordCircuitBreakerState`. -/
def stateInt : CircuitBreakerState → Int
  | CircuitClosed => 0
  | CircuitHalfOpen => 1
  | CircuitOpen => 2

/-- `CircuitBreakerState.String()` from main.go. -/
def stateName : CircuitBreakerState → String
  | CircuitClosed => "closed"
  | CircuitHalfOpen => "half-open"
  | CircuitOpen => "open"

/-- The `CircuitBreaker` struct from main.go (the `sync.RWMutex` field is
dropped: the embedding is sequential, mirroring the serialized critical
sections of the source). -/
structure CircuitBreaker where
  threshold : Int
  timeout : Int
  failureCount : Int
  lastFailure : Int
  state : CircuitBreakerState
deriving DecidableEq, Repr, Inhabited

/-- `NewCircuitBreaker` from main.go: zero-valued counter and timestamp,
initial state `CircuitClosed`. -/
def NewCircuitBreaker (threshold timeout : Int) : CircuitBreaker :=
  { threshold := threshold, timeout := timeout, failureCount := 0,
    lastFailure := 0, state := CircuitClosed }

/-- `CircuitBreaker.IsOpen` from main.go.  The read is side-effecting: in the
`CircuitOpen` case, if `time.Since(cb.lastFailure) >= cb.timeout` the state is
set to `CircuitHalfOpen` and `false` is returned. -/
def CircuitBreaker.IsOpen (cb : CircuitBreaker) (now : Int) : Bool × CircuitBreaker :=
  match cb.state with
  | CircuitOpen =>
    if cb.timeout ≤ now - cb.lastFailure then
      (false, { cb with state := CircuitHalfOpen })
    else
      (true, cb)
  | CircuitHalfOpen => (false, cb)
  | CircuitClosed => (false, cb)

/-- `CircuitBreaker.RecordSuccess` from main.go: unconditionally reset the
failure counter and close the breaker. -/
def CircuitBreaker.RecordSuccess (cb : CircuitBreaker) : CircuitBreaker :=
  { cb with failureCount := 0, state := CircuitClosed }

/-- `CircuitBreaker.RecordFailure` from main.go: increment the counter, stamp
`lastFailure`, open from `CircuitHalfOpen` unconditionally, and open from
`CircuitClosed` when the incremented counter reaches the threshold. -/
def CircuitBreaker.RecordFailure (cb : CircuitBreaker) (now : Int) : CircuitBreaker :=
  let fc := cb.failureCount + 1
  let st :=
    if cb.state = CircuitHalfOpen then CircuitOpen
    else if cb.state = CircuitClosed ∧ cb.threshold ≤ fc then CircuitOpen
    else cb.state
  { cb with failureCount := fc, lastFailure := now, state := st }

/-- `CircuitBreaker.GetState` from main.go.  The read is side-effecting: an
expired `CircuitOpen` breaker is moved to `CircuitHalfOpen` before the state
is returned. -/
def CircuitBreaker.GetState (cb : CircuitBreaker) (now : Int) :
    CircuitBreakerState × CircuitBreaker :=
  if cb.state = CircuitOpen ∧ cb.timeout ≤ now - cb.lastFailure then
    (CircuitHalfOpen, { cb with state := CircuitHalfOpen })
  else
    (cb.state, cb)

/-- A sequence of consecutive `RecordFailure` calls, performed at the listed
instants, with no intervening `RecordSuccess`. -/
def recordFailures (cb : CircuitBreaker) (ts : List Int) : CircuitBreaker :=
  ts.foldl CircuitBreaker.RecordFailure cb

@[simp] lemma RecordFailure_failureCount (cb : CircuitBreaker) (now : Int) :
    (cb.RecordFailure now).failureCount = cb.failureCount + 1 := rfl

@[simp] lemma RecordFailure_lastFailure (cb : CircuitBreaker) (now : Int) :
    (cb.RecordFailure now).lastFailure = now := rfl

@[simp] lemma RecordFailure_threshold (cb : CircuitBreaker) (now : Int) :
    (cb.RecordFailure now).threshold = cb.threshold := rfl

@[simp] lemma RecordFailure_timeout (cb : CircuitBreaker) (now : Int) :
    (cb.RecordFailure now).timeout = cb.timeout := rfl

lemma RecordFailure_state_closed_lt (cb : CircuitBreaker) (now : Int)
    (h : cb.state = CircuitClosed) (hlt : cb.failureCount + 1 < cb.threshold) :
    (cb.RecordFailure now).state = CircuitClosed := by
  simp only [CircuitBreaker.RecordFailure, h]
  rw [if_neg (by simp), if_neg (by simp; omega)]

lemma RecordFailure_state_closed_ge (cb : CircuitBreaker) (now : Int)
    (h : cb.state = CircuitClosed) (hge : cb.threshold ≤ cb.failureCount + 1) :
    (cb.RecordFailure now).state = CircuitOpen := by
  simp [CircuitBreaker.RecordFailure, h, hge]

lemma RecordFailure_state_halfOpen (cb : CircuitBreaker) (now : Int)
    (h : cb.state = CircuitHalfOpen) :
    (cb.RecordFailure now).state = CircuitOpen := by
  simp [CircuitBreaker.RecordFailure, h]

@[simp] lemma recordFailures_nil (cb : CircuitBreaker) :
    recordFailures cb [] = cb := rfl

@[simp] lemma recordFailures_cons (cb : CircuitBreaker) (t : Int) (ts : List Int) :
    recordFailures cb (t :: ts) = recordFailures (cb.RecordFailure t) ts := rfl

/-- The timestamp of the last element of `ts` (or `d` when `ts` is empty). -/
def lastD : List Int → Int → Int
  | [], d => d
  | t :: ts, _ => lastD ts t

@[simp] lemma lastD_nil (d : Int) : lastD [] d = d := rfl

@[simp] lemma lastD_cons (t : Int) (ts : List Int) (d : Int) :
    lastD (t :: ts) d = lastD ts t := rfl

lemma recordFailures_lastFailure : ∀ (ts : List Int) (cb : CircuitBreaker),
    (recordFailures cb ts).lastFailure = lastD ts cb.lastFailure := by
  intro ts
  induction ts with
  | nil => intro cb; simp
  | cons t ts ih =>
    intro cb
    rw [recordFailures_cons, ih]
    simp

lemma recordFailures_stay_closed : ∀ (ts : List Int) (cb : CircuitBreaker),
    cb.state = CircuitClosed → cb.failureCount + (ts.length : Int) < cb.threshold →
    (recordFailures cb ts).state = CircuitClosed ∧
    (recordFailures cb ts).failureCount = cb.failureCount + (ts.length : Int) := by
  intro ts
  induction ts with
  | nil =>
    intro cb h1 _
    exact ⟨h1, by simp⟩
  | cons t ts ih =>
    intro cb h1 h2
    rw [recordFailures_cons]
    simp only [List.length_cons] at h2
    push_cast at h2
    have hlt : cb.failureCount + 1 < cb.threshold := by
      have hnn : (0 : Int) ≤ (ts.length : Int) := Int.ofNat_nonneg _
      omega
    have hcb' : (cb.RecordFailure t).state = CircuitClosed :=
      RecordFailure_state_closed_lt cb t h1 hlt
    have h2' : (cb.RecordFailure t).failureCount + (ts.length : Int) <
        (cb.RecordFailure t).threshold := by
      rw [RecordFailure_failureCount, RecordFailure_threshold]
      omega
    obtain ⟨hs, hf⟩ := ih (cb.RecordFailure t) hcb' h2'
    refine ⟨hs, ?_⟩
    rw [hf, RecordFailure_failureCount]
    simp only [List.length_cons]
    push_cast
    omega

lemma recordFailures_opens : ∀ (ts : List Int) (cb : CircuitBreaker),
    cb.state = CircuitClosed → cb.failureCount + (ts.length : Int) = cb.threshold →
    ts ≠ [] →
    (recordFailures cb ts).state = CircuitOpen := by
  intro ts
  induction ts with
  | nil => intro cb _ _ hne; exact absurd rfl hne
  | cons t ts ih =>
    intro cb h1 h2 _
    rw [recordFailures_cons]
    simp only [List.length_cons] at h2
    push_cast at h2
    by_cases hts : ts = []
    · subst hts
      have hge : cb.threshold ≤ cb.failureCount + 1 := by
        simp only [List.length_nil] at h2
        omega
      simpa using RecordFailure_state_closed_ge cb t h1 hge
    · have hpos : 1 ≤ (ts.length : Int) := by
        have := List.length_pos.mpr hts
        omega
      have hlt : cb.failureCount + 1 < cb.threshold := by
        omega
      have hs := RecordFailure_state_closed_lt cb t h1 hlt
      refine ih (cb.RecordFailure t) hs ?_ hts
      rw [RecordFailure_failureCount, RecordFailure_threshold]
      omega

/-- C1: a breaker created with threshold `T >= 1` reaches `CircuitOpen` after
exactly `T` consecutive `RecordFailure` calls (with the timestamp of the last
failure recorded), while fewer than `T` consecutive failures leave it
`CircuitClosed` (with the failure counter equal to the number of calls). -/
theorem C1_threshold_opens_breaker (threshold timeout : Int) (ts : List Int)
    (hT : 1 ≤ threshold) :
    (((ts.length : Int) < threshold →
      (recordFailures (NewCircuitBreaker threshold timeout) ts).state = CircuitClosed ∧
      (recordFailures (NewCircuitBreaker threshold timeout) ts).failureCount =
        (ts.length : Int))) ∧
    ((ts.length : Int) = threshold →
      (recordFailures (NewCircuitBreaker threshold timeout) ts).state = CircuitOpen ∧
      (recordFailures (NewCircuitBreaker threshold timeout) ts).lastFailure =
        lastD ts 0) := by
  constructor
  · intro hlt
    have h := recordFailures_stay_closed ts (NewCircuitBreaker threshold timeout)
      rfl (by simpa [NewCircuitBreaker] using hlt)
    simpa [NewCircuitBreaker] using h
  · intro heq
    have hne : ts ≠ [] := by
      intro h
      subst h
      simp at heq
      omega
    constructor
    · exact recordFailures_opens ts (NewCircuitBreaker threshold timeout) rfl
        (by simpa [NewCircuitBreaker] using heq) hne
    · simpa [NewCircuitBreaker] using
        recordFailures_lastFailure ts (NewCircuitBreaker threshold timeout)

/-- Witness for C1 at threshold 2: two failures open the breaker and record
the last failure time; a single failure leaves it closed with counter 1. -/
theorem C1_threshold_opens_breaker_witness :
    (recordFailures (NewCircuitBreaker 2 100) [5, 9]).state = CircuitOpen ∧
    (recordFailures (NewCircuitBreaker 2 100) [5, 9]).lastFailure =
      lastD [5, 9] 0 ∧
    (recordFailures (NewCircuitBreaker 2 100) [5]).state = CircuitClosed ∧
    (recordFailures (NewCircuitBreaker 2 100) [5]).failureCount = 1 := by
  have h2 := (C1_threshold_opens_breaker 2 100 [5, 9] (by decide)).2 (by decide)
  have h1 := (C1_threshold_opens_breaker 2 100 [5] (by decide)).1 (by decide)
  exact ⟨h2.1, h2.2, h1.1, by simpa using h1.2⟩

/-- C2: while an open breaker is within its timeout, both reads leave it
untouched and `IsOpen` answers `true`; once the timeout has elapsed, the
first read moves the breaker to `CircuitHalfOpen` as a side effect (`IsOpen`
then answers `false`, `GetState` answers `CircuitHalfOpen`), and a second
read of the transitioned breaker changes nothing further. -/
theorem C2_open_reads_transition (cb : CircuitBreaker) (now now2 : Int)
    (hOpen : cb.state = CircuitOpen) :
    (now - cb.lastFailure < cb.timeout →
      (cb.IsOpen now).1 = true ∧ (cb.IsOpen now).2 = cb ∧
      (cb.GetState now).1 = CircuitOpen ∧ (cb.GetState now).2 = cb) ∧
    (cb.timeout ≤ now - cb.lastFailure →
      (cb.IsOpen now).1 = false ∧
      (cb.IsOpen now).2 = { cb with state := CircuitHalfOpen } ∧
      (cb.GetState now).1 = CircuitHalfOpen ∧
      (cb.GetState now).2 = { cb with state := CircuitHalfOpen } ∧
      ((cb.IsOpen now).2.IsOpen now2).2 = (cb.IsOpen now).2 ∧
      ((cb.GetState now).2.GetState now2).2 = (cb.GetState now).2) := by
  constructor
  · intro hin
    have hnot : ¬ cb.timeout ≤ now - cb.lastFailure := by omega
    refine ⟨?_, ?_, ?_, ?_⟩
    · simp [CircuitBreaker.IsOpen, hOpen, hnot]
    · simp [CircuitBreaker.IsOpen, hOpen, hnot]
    · simp only [CircuitBreaker.GetState]
      rw [if_neg (by intro h; exact hnot h.2)]
      exact hOpen
    · simp only [CircuitBreaker.GetState]
      rw [if_neg (by intro h; exact hnot h.2)]
  · intro hout
    have hIs : cb.IsOpen now = (false, { cb with state := CircuitHalfOpen }) := by
      simp [CircuitBreaker.IsOpen, hOpen, hout]
    have hGs : cb.GetState now = (CircuitHalfOpen, { cb with state := CircuitHalfOpen }) := by
      simp only [CircuitBreaker.GetState]
      rw [if_pos ⟨hOpen, hout⟩]
    refine ⟨by rw [hIs], by rw [hIs], by rw [hGs], by rw [hGs], ?_, ?_⟩
    · rw [hIs]
      simp [CircuitBreaker.IsOpen]
    · rw [hGs]
      simp only [CircuitBreaker.GetState]
      rw [if_neg (by intro h; cases h.1)]

/-- Witness for C2: an open breaker (last failure at 50, timeout 100) is still
reported open at instant 60, and a read at instant 200 transitions it to
half-open. -/
theorem C2_open_reads_transition_witness :
    ((⟨3, 100, 3, 50, CircuitOpen⟩ : CircuitBreaker).IsOpen 60).1 = true ∧
    ((⟨3, 100, 3, 50, CircuitOpen⟩ : CircuitBreaker).GetState 200).1 = CircuitHalfOpen := by
  have ha := (C2_open_reads_transition ⟨3, 100, 3, 50, CircuitOpen⟩ 60 0 rfl).1 (by decide)
  have hb := (C2_open_reads_transition ⟨3, 100, 3, 50, CircuitOpen⟩ 200 0 rfl).2 (by decide)
  exact ⟨ha.1, hb.2.2.1⟩

/-- C3: from `CircuitHalfOpen`, one `RecordSuccess` closes the breaker and
resets the failure counter to 0, and one `RecordFailure` reopens it with a
fresh failure timestamp, irrespective of threshold and counter. -/
theorem C3_halfOpen_single_probe (cb : CircuitBreaker) (now : Int)
    (h : cb.state = CircuitHalfOpen) :
    cb.RecordSuccess.state = CircuitClosed ∧
    cb.RecordSuccess.failureCount = 0 ∧
    (cb.RecordFailure now).state = CircuitOpen ∧
    (cb.RecordFailure now).lastFailure = now := by
  exact ⟨rfl, rfl, RecordFailure_state_halfOpen cb now h, rfl⟩

/-- Witness for C3 on a concrete half-open breaker with counter 4 and
threshold 9 (the threshold is never re-consulted). -/
theorem C3_halfOpen_single_probe_witness :
    (⟨9, 100, 4, 50, CircuitHalfOpen⟩ : CircuitBreaker).RecordSuccess.state = CircuitClosed ∧
    ((⟨9, 100, 4, 50, CircuitHalfOpen⟩ : CircuitBreaker).RecordFailure 77).state = CircuitOpen ∧
    ((⟨9, 100, 4, 50, CircuitHalfOpen⟩ : CircuitBreaker).RecordFailure 77).lastFailure = 77 := by
  have h := C3_halfOpen_single_probe ⟨9, 100, 4, 50, CircuitHalfOpen⟩ 77 rfl
  exact ⟨h.1, h.2.2.1, h.2.2.2⟩

/-- C10: `RecordSuccess` closes the breaker and zeroes the failure counter
from every state, including `CircuitOpen` before its timeout has elapsed;
nothing else changes. -/
theorem C10_success_closes_from_any_state (cb : CircuitBreaker) :
    cb.RecordSuccess.state = CircuitClosed ∧
    cb.RecordSuccess.failureCount = 0 ∧
    cb.RecordSuccess.threshold = cb.threshold ∧
    cb.RecordSuccess.timeout = cb.timeout ∧
    cb.RecordSuccess.lastFailure = cb.lastFailure :=
  ⟨rfl, rfl, rfl, rfl, rfl⟩

/-! ## Retry policy (`Search.retryWithExponentialBackoff` from main.go) -/

/-- The outcome of one `net.DialTimeout` call: its error (`none` = success)
and the wall-clock time the call consumed. -/
structure DialStep where
  err : Option String
  dur : Int
deriving DecidableEq, Repr

/-- What `retryWithExponentialBackoff` returns and does: the reported elapsed
time (`time.Since(startTime)`), the final error, the number of dial attempts
performed, and the backoff delays slept between attempts, in order. -/
structure RetryResult where
  elapsed : Int
  err : Option String
  dialCount : Nat
  delays : List Int
deriving DecidableEq, Repr

/-- The per-retry delay computation of `retryWithExponentialBackoff`:
`delay := RetryDelay * 2^attempt`, plus the jitter summand, then capped to
`Timeout / 2` when the jittered delay exceeds `Timeout`.  The source draws
the jitter as `delay * 0.1 * (rand.Float64()*2 - 1)`, a value within ±10% of
the un-jittered delay; it is an explicit parameter here. -/
def backoffDelay (retryDelay timeout : Int) (attempt : Nat) (jitter : Int) : Int :=
  let delay := retryDelay * 2 ^ attempt + jitter
  if delay > timeout then timeout / 2 else delay

/-- The retry loop of `retryWithExponentialBackoff`, recursing on the number
of attempts still allowed after the current one (`remaining`, i.e.
`RetryCount - attempt`).  The `k`-th dial performed is `dial k`; the clock
advances by each dial's duration and by each slept delay, and the reported
elapsed time is the accumulated clock at return. -/
def retryRun (retryDelay timeout : Int) (dial : Nat → DialStep) (jit : Nat → Int) :
    Nat → Nat → RetryResult
  | attempt, 0 =>
    { elapsed := (dial attempt).dur, err := (dial attempt).err,
      dialCount := 1, delays := [] }
  | attempt, remaining + 1 =>
    match (dial attempt).err with
    | none =>
      { elapsed := (dial attempt).dur, err := none, dialCount := 1, delays := [] }
    | some _ =>
      let d := backoffDelay retryDelay timeout attempt (jit attempt)
      let rest := retryRun retryDelay timeout dial jit (attempt + 1) remaining
      { elapsed := (dial attempt).dur + d + rest.elapsed,
        err := rest.err,
        dialCount := rest.dialCount + 1,
        delays := d :: rest.delays }

/-- `Search.retryWithExponentialBackoff` from main.go, for a retry count
`R >= 0` (`for attempt := 0; attempt <= RetryCount; attempt++`). -/
def retryWithExponentialBackoff (retryCount : Nat) (retryDelay timeout : Int)
    (dial : Nat → DialStep) (jit : Nat → Int) : RetryResult :=
  retryRun retryDelay timeout dial jit 0 retryCount

/-- Sum of the durations of `n` consecutive dials starting at index `attempt`. -/
def durSum (dial : Nat → DialStep) : Nat → Nat → Int
  | _, 0 => 0
  | attempt, n + 1 => (dial attempt).dur + durSum dial (attempt + 1) n

lemma retryRun_dialCount_pos (retryDelay timeout : Int) (dial : Nat → DialStep)
    (jit : Nat → Int) : ∀ (remaining attempt : Nat),
    1 ≤ (retryRun retryDelay timeout dial jit attempt remaining).dialCount := by
  intro remaining
  induction remaining with
  | zero => intro attempt; simp [retryRun]
  | succ r ih =>
    intro attempt
    cases hE : (dial attempt).err with
    | none => simp [retryRun, hE]
    | some e => simp [retryRun, hE]

lemma retryRun_dialCount_le (retryDelay timeout : Int) (dial : Nat → DialStep)
    (jit : Nat → Int) : ∀ (remaining attempt : Nat),
    (retryRun retryDelay timeout dial jit attempt remaining).dialCount ≤ remaining + 1 := by
  intro remaining
  induction remaining with
  | zero => intro attempt; simp [retryRun]
  | succ r ih =>
    intro attempt
    cases hE : (dial attempt).err with
    | none => simp [retryRun, hE]
    | some e =>
      simp only [retryRun, hE]
      have := ih (attempt + 1)
      omega

lemma retryRun_success (retryDelay timeout : Int) (dial : Nat → DialStep)
    (jit : Nat → Int) : ∀ (k remaining attempt : Nat), k ≤ remaining →
    (∀ j, j < k → (dial (attempt + j)).err ≠ none) →
    (dial (attempt + k)).err = none →
    (retryRun retryDelay timeout dial jit attempt remaining).dialCount = k + 1 ∧
    (retryRun retryDelay timeout dial jit attempt remaining).err = none := by
  intro k
  induction k with
  | zero =>
    intro remaining attempt _ _ hk
    rw [Nat.add_zero] at hk
    cases remaining with
    | zero => simp [retryRun, hk]
    | succ r => simp [retryRun, hk]
  | succ k ih =>
    intro remaining attempt hle hfail hk
    have h0 : (dial attempt).err ≠ none := by
      have := hfail 0 (Nat.succ_pos k)
      simpa using this
    cases remaining with
    | zero => omega
    | succ r =>
      cases hE : (dial attempt).err with
      | none => exact absurd hE h0
      | some e =>
        simp only [retryRun, hE]
        have hrec := ih r (attempt + 1) (by omega)
          (by intro j hj
              have := hfail (j + 1) (by omega)
              have harg : attempt + (j + 1) = attempt + 1 + j := by omega
              rwa [harg] at this)
          (by have harg : attempt + (k + 1) = attempt + 1 + k := by omega
              rwa [harg] at hk)
        exact ⟨by omega, hrec.2⟩

lemma retryRun_allFail (retryDelay timeout : Int) (dial : Nat → DialStep)
    (jit : Nat → Int) : ∀ (remaining attempt : Nat),
    (∀ k, k ≤ remaining → (dial (attempt + k)).err ≠ none) →
    (retryRun retryDelay timeout dial jit attempt remaining).dialCount = remaining + 1 ∧
    (retryRun retryDelay timeout dial jit attempt remaining).err =
      (dial (attempt + remaining)).err := by
  intro remaining
  induction remaining with
  | zero =>
    intro attempt _
    simp [retryRun]
  | succ r ih =>
    intro attempt hfail
    have h0 : (dial attempt).err ≠ none := by
      have := hfail 0 (Nat.zero_le _)
      simpa using this
    cases hE : (dial attempt).err with
    | none => exact absurd hE h0
    | some e =>
      simp only [retryRun, hE]
      have hrec := ih (attempt + 1)
        (by intro j hj
            have := hfail (j + 1) (by omega)
            have harg : attempt + (j + 1) = attempt + 1 + j := by omega
            rwa [harg] at this)
      refine ⟨by omega, ?_⟩
      rw [hrec.2]
      have harg : attempt + 1 + r = attempt + (r + 1) := by omega
      rw [harg]

lemma retryRun_elapsed (retryDelay timeout : Int) (dial : Nat → DialStep)
    (jit : Nat → Int) : ∀ (remaining attempt : Nat),
    (retryRun retryDelay timeout dial jit attempt remaining).elapsed =
      durSum dial attempt (retryRun retryDelay timeout dial jit attempt remaining).dialCount +
      (retryRun retryDelay timeout dial jit attempt remaining).delays.sum := by
  intro remaining
  induction remaining with
  | zero =>
    intro attempt
    simp [retryRun, durSum]
  | succ r ih =>
    intro attempt
    cases hE : (dial attempt).err with
    | none => simp [retryRun, hE, durSum]
    | some e =>
      simp only [retryRun, hE]
      have := ih (attempt + 1)
      simp only [durSum, List.sum_cons]
      rw [this]
      ring

lemma retryRun_delays_get (retryDelay timeout : Int) (dial : Nat → DialStep)
    (jit : Nat → Int) : ∀ (a remaining attempt : Nat), a < remaining →
    (∀ k, k ≤ a → (dial (attempt + k)).err ≠ none) →
    (retryRun retryDelay timeout dial jit attempt remaining).delays.get? a =
      some (backoffDelay retryDelay timeout (attempt + a) (jit (attempt + a))) := by
  intro a
  induction a with
  | zero =>
    intro remaining attempt hlt hfail
    cases remaining with
    | zero => omega
    | succ r =>
      have h0 : (dial attempt).err ≠ none := by
        have := hfail 0 (Nat.zero_le _)
        simpa using this
      cases hE : (dial attempt).err with
      | none => exact absurd hE h0
      | some e => simp [retryRun, hE]
  | succ a ih =>
    intro remaining attempt hlt hfail
    cases remaining with
    | zero => omega
    | succ r =>
      have h0 : (dial attempt).err ≠ none := by
        have := hfail 0 (Nat.zero_le _)
        simpa using this
      cases hE : (dial attempt).err with
      | none => exact absurd hE h0
      | some e =>
        simp only [retryRun, hE, List.get?_cons_succ]
        have hrec := ih r (attempt + 1) (by omega)
          (by intro j hj
              have := hfail (j + 1) (by omega)
              have harg : attempt + (j + 1) = attempt + 1 + j := by omega
              rwa [harg] at this)
        rw [hrec]
        have harg : attempt + 1 + a = attempt + (a + 1) := by omega
        rw [harg]

/-- C4: `retryWithExponentialBackoff` with retry count `R` performs at most
`R + 1` dials; if the first success is at dial `k <= R` it stops right there
(`k + 1` dials, success outcome); if every dial fails it performs exactly
`R + 1` dials and reports the last dial's error; and the elapsed time it
reports is the accumulated wall clock of all performed dials plus all
backoff sleeps. -/
theorem C4_retry_attempt_counts (R : Nat) (retryDelay timeout : Int)
    (dial : Nat → DialStep) (jit : Nat → Int) :
    (retryWithExponentialBackoff R retryDelay timeout dial jit).dialCount ≤ R + 1 ∧
    (∀ k, k ≤ R → (∀ j, j < k → (dial j).err ≠ none) → (dial k).err = none →
      (retryWithExponentialBackoff R retryDelay timeout dial jit).dialCount = k + 1 ∧
      (retryWithExponentialBackoff R retryDelay timeout dial jit).err = none) ∧
    ((∀ k, k ≤ R → (dial k).err ≠ none) →
      (retryWithExponentialBackoff R retryDelay timeout dial jit).dialCount = R + 1 ∧
      (retryWithExponentialBackoff R retryDelay timeout dial jit).err = (dial R).err) ∧
    (retryWithExponentialBackoff R retryDelay timeout dial jit).elapsed =
      durSum dial 0 (retryWithExponentialBackoff R retryDelay timeout dial jit).dialCount +
      (retryWithExponentialBackoff R retryDelay timeout dial jit).delays.sum := by
  refine ⟨retryRun_dialCount_le retryDelay timeout dial jit R 0, ?_, ?_, ?_⟩
  · intro k hk hfail hsucc
    exact retryRun_success retryDelay timeout dial jit k R 0 hk
      (by simpa using hfail) (by simpa using hsucc)
  · intro hfail
    have h := retryRun_allFail retryDelay timeout dial jit R 0
      (by simpa using hfail)
    simpa using h
  · exact retryRun_elapsed retryDelay timeout dial jit R 0

/-- Witness for C4 with `R = 3`: an always-failing target yields exactly 4
dials and the last error; an immediately-succeeding target yields 1 dial. -/
theorem C4_retry_attempt_counts_witness :
    (retryWithExponentialBackoff 3 10 1000 (fun k => ⟨some (toString k), 7⟩)
      (fun _ => 0)).dialCount = 4 ∧
    (retryWithExponentialBackoff 3 10 1000 (fun k => ⟨some (toString k), 7⟩)
      (fun _ => 0)).err = some "3" ∧
    (retryWithExponentialBackoff 3 10 1000 (fun _ => ⟨none, 7⟩)
      (fun _ => 0)).dialCount = 1 := by
  have hf := (C4_retry_attempt_counts 3 10 1000 (fun k => ⟨some (toString k), 7⟩)
    (fun _ => 0)).2.2.1 (by intro k _; simp)
  have hs := ((C4_retry_attempt_counts 3 10 1000 (fun _ => ⟨none, 7⟩)
    (fun _ => 0)).2.1 0 (by omega) (by omega) rfl).1
  exact ⟨hf.1, hf.2, hs⟩

/-- The delay rule in the words of the specification sentence behind C5:
cap the jittered exponential delay at `timeout / 2` whenever it would exceed
the *remaining timeout budget* (the timeout minus the wall-clock time already
spent).  This definition follows the claim, for comparison with
`backoffDelay`, which is translated from the source. -/
def specBudgetBackoffDelay (retryDelay timeout elapsedSoFar : Int) (attempt : Nat)
    (jitter : Int) : Int :=
  let delay := retryDelay * 2 ^ attempt + jitter
  if delay > timeout - elapsedSoFar then timeout / 2 else delay

/-- Counterexample to C5 as stated: retry count 1, base delay 6, timeout 10,
zero jitter, and a first dial that fails after consuming 5 time units.  The
remaining timeout budget is `10 - 5 = 5`, and the un-capped delay 6 exceeds
it, so the claimed rule prescribes a slept delay of `10 / 2 = 5`; the code
compares 6 against the full timeout 10, does not cap, and sleeps 6. -/
theorem C5_backoff_cap_counterexample :
    (retryWithExponentialBackoff 1 6 10 (fun _ => ⟨some "refused", 5⟩)
      (fun _ => 0)).delays = [6] ∧
    specBudgetBackoffDelay 6 10 5 0 0 = 5 ∧
    (6 : Int) ≠ 5 := by
  refine ⟨rfl, rfl, by decide⟩

/-- C5 (amended): after a failed dial `a` with attempts remaining
(`a < retryCount`), the slept delay is `retryDelay * 2^a` plus the jitter
summand, capped at `timeout / 2` whenever the jittered delay exceeds the
timeout — the full, fixed per-dial timeout, not a remaining budget. -/
theorem C5_backoff_delay_formula (R : Nat) (retryDelay timeout : Int)
    (dial : Nat → DialStep) (jit : Nat → Int) (a : Nat) (ha : a < R)
    (hfail : ∀ k, k ≤ a → (dial k).err ≠ none) :
    (retryWithExponentialBackoff R retryDelay timeout dial jit).delays.get? a =
      some (backoffDelay retryDelay timeout a (jit a)) ∧
    backoffDelay retryDelay timeout a (jit a) =
      (if retryDelay * 2 ^ a + jit a > timeout then timeout / 2
       else retryDelay * 2 ^ a + jit a) := by
  constructor
  · have h := retryRun_delays_get retryDelay timeout dial jit a R 0 ha
      (by simpa using hfail)
    simpa using h
  · rfl

/-- Witness for C5 (amended): with base delay 6, timeout 10 and zero jitter,
the jittered delay `6 * 2^0 + 0 = 6` does not exceed the timeout 10, so the
delay slept after the first failed dial is exactly `backoffDelay 6 10 0 0 = 6`. -/
theorem C5_backoff_delay_formula_witness :
    (retryWithExponentialBackoff 1 6 10 (fun _ => ⟨some "refused", 5⟩)
      (fun _ => 0)).delays.get? 0 = some (backoffDelay 6 10 0 0) :=
  (C5_backoff_delay_formula 1 6 10 (fun _ => ⟨some "refused", 5⟩) (fun _ => 0) 0
    (by omega) (by intro k _; simp)).1

/-! ## Group aggregator (`calculateGroupHealth` from main.go) -/

/-- `URLWithGroup` from main.go. -/
structure URLWithGroup where
  url : String
  group : String
deriving DecidableEq, Repr

/-- `GroupStatus` from main.go (counts are Go `int`s). -/
structure GroupStatus where
  groupName : String
  isHealthy : Bool
  totalURLs : Int
  healthyURLs : Int
  unhealthyURLs : Int
  urls : List String
deriving DecidableEq, Repr

/-- The accumulation loop of `calculateGroupHealth`: for each target labelled
with the group, count it, count it as healthy when `checkResults` (the Go
`map[string]bool`, modelled as an association list) holds a `true` entry for
its URL, and collect its URL.  Returns `(totalCount, healthyCount, groupURLs)`. -/
def groupLoop (groupName : String) (checkResults : List (String × Bool)) :
    List URLWithGroup → Int × Int × List String
  | [] => (0, 0, [])
  | u :: rest =>
    let p := groupLoop groupName checkResults rest
    if u.group == groupName then
      (p.1 + 1,
       (if checkResults.lookup u.url == some true then p.2.1 + 1 else p.2.1),
       u.url :: p.2.2)
    else p

/-- `calculateGroupHealth` from main.go: a group is healthy iff it is
non-empty and every member is healthy. -/
def calculateGroupHealth (groupName : String) (urlsWithGroups : List URLWithGroup)
    (checkResults : List (String × Bool)) : GroupStatus :=
  let p := groupLoop groupName checkResults urlsWithGroups
  { groupName := groupName,
    isHealthy := decide (0 < p.1 ∧ p.2.1 = p.1),
    totalURLs := p.1,
    healthyURLs := p.2.1,
    unhealthyURLs := p.1 - p.2.1,
    urls := p.2.2 }

lemma groupLoop_counts (groupName : String) (checkResults : List (String × Bool)) :
    ∀ (uwgs : List URLWithGroup),
    (groupLoop groupName checkResults uwgs).1 =
      ((uwgs.filter (fun u => u.group == groupName)).length : Int) ∧
    (groupLoop groupName checkResults uwgs).2.1 =
      ((uwgs.filter (fun u =>
        u.group == groupName && (checkResults.lookup u.url == some true))).length : Int) := by
  intro uwgs
  induction uwgs with
  | nil => simp [groupLoop]
  | cons u rest ih =>
    obtain ⟨ih1, ih2⟩ := ih
    by_cases hg : (u.group == groupName) = true
    · by_cases hl : (checkResults.lookup u.url == some true) = true
      · refine ⟨?_, ?_⟩
        · simp only [groupLoop, hg, if_true, List.filter_cons, hg, List.length_cons]
          rw [ih1]
          push_cast
          omega
        · simp only [groupLoop, hg, if_true, hl, List.filter_cons, Bool.true_and,
            List.length_cons]
          rw [ih2]
          push_cast
          omega
      · have hl' : (checkResults.lookup u.url == some true) = false :=
          Bool.eq_false_iff.mpr hl
        refine ⟨?_, ?_⟩
        · simp only [groupLoop, hg, if_true, List.filter_cons, hg, List.length_cons]
          rw [ih1]
          push_cast
          omega
        · simp only [groupLoop, hg, if_true, hl', List.filter_cons, Bool.true_and,
            Bool.false_eq_true, if_false]
          rw [ih2]
    · have hg' : (u.group == groupName) = false := Bool.eq_false_iff.mpr hg
      refine ⟨?_, ?_⟩
      · simp only [groupLoop, hg', List.filter_cons, Bool.false_eq_true, if_false]
        exact ih1
      · simp only [groupLoop, hg', List.filter_cons, Bool.false_and,
          Bool.false_eq_true, if_false]
        exact ih2

/-- C6: `calculateGroupHealth` counts exactly the targets labelled with the
group; counts as healthy exactly the members whose URL has a `true` entry in
the results map (absent entries are unhealthy); sets
`UnhealthyURLs = TotalURLs - HealthyURLs`; is healthy iff the group is
non-empty and all members are healthy; and an empty group yields
`IsHealthy = false` with `TotalURLs = 0`. -/
theorem C6_group_health (groupName : String) (uwgs : List URLWithGroup)
    (checkResults : List (String × Bool)) :
    (calculateGroupHealth groupName uwgs checkResults).totalURLs =
      ((uwgs.filter (fun u => u.group == groupName)).length : Int) ∧
    (calculateGroupHealth groupName uwgs checkResults).healthyURLs =
      ((uwgs.filter (fun u =>
        u.group == groupName && (checkResults.lookup u.url == some true))).length : Int) ∧
    (calculateGroupHealth groupName uwgs checkResults).unhealthyURLs =
      (calculateGroupHealth groupName uwgs checkResults).totalURLs -
        (calculateGroupHealth groupName uwgs checkResults).healthyURLs ∧
    ((calculateGroupHealth groupName uwgs checkResults).isHealthy = true ↔
      0 < (calculateGroupHealth groupName uwgs checkResults).totalURLs ∧
      (calculateGroupHealth groupName uwgs checkResults).healthyURLs =
        (calculateGroupHealth groupName uwgs checkResults).totalURLs) ∧
    (uwgs.filter (fun u => u.group == groupName) = [] →
      (calculateGroupHealth groupName uwgs checkResults).isHealthy = false ∧
      (calculateGroupHealth groupName uwgs checkResults).totalURLs = 0) := by
  obtain ⟨ht, hh⟩ := groupLoop_counts groupName checkResults uwgs
  refine ⟨?_, ?_, rfl, ?_, ?_⟩
  · simpa [calculateGroupHealth] using ht
  · simpa [calculateGroupHealth] using hh
  · simp [calculateGroupHealth]
  · intro hempty
    constructor
    · simp only [calculateGroupHealth, decide_eq_false_iff_not]
      intro hcontra
      rw [ht, hempty] at hcontra
      simp at hcontra
    · simp only [calculateGroupHealth]
      rw [ht, hempty]
      simp

/-- Witness for C6, mirroring the spec's end-to-end scenario: group `g1` with
one healthy and one failing member gives `TotalURLs = 2, HealthyURLs = 1,
IsHealthy = false`; an empty group is unhealthy with zero members. -/
theorem C6_group_health_witness :
    (calculateGroupHealth "g1"
      [⟨"a.test", "g1"⟩, ⟨"b.test", "g1"⟩, ⟨"c.test", "g2"⟩]
      [("a.test", true), ("b.test", false)]).totalURLs = 2 ∧
    (calculateGroupHealth "g1"
      [⟨"a.test", "g1"⟩, ⟨"b.test", "g1"⟩, ⟨"c.test", "g2"⟩]
      [("a.test", true), ("b.test", false)]).healthyURLs = 1 ∧
    (calculateGroupHealth "g1"
      [⟨"a.test", "g1"⟩, ⟨"b.test", "g1"⟩, ⟨"c.test", "g2"⟩]
      [("a.test", true), ("b.test", false)]).isHealthy = false ∧
    (calculateGroupHealth "empty" [⟨"a.test", "g1"⟩] []).isHealthy = false ∧
    (calculateGroupHealth "empty" [⟨"a.test", "g1"⟩] []).totalURLs = 0 := by
  have h := C6_group_health "g1"
    [⟨"a.test", "g1"⟩, ⟨"b.test", "g1"⟩, ⟨"c.test", "g2"⟩]
    [("a.test", true), ("b.test", false)]
  have he := (C6_group_health "empty" [⟨"a.test", "g1"⟩] []).2.2.2.2 (by decide)
  refine ⟨by rw [h.1]; decide, by rw [h.2.1]; decide, ?_, he.1, he.2⟩
  have hiff := h.2.2.2.1
  have hne : ¬ ((calculateGroupHealth "g1"
      [⟨"a.test", "g1"⟩, ⟨"b.test", "g1"⟩, ⟨"c.test", "g2"⟩]
      [("a.test", true), ("b.test", false)]).isHealthy = true) := by
    intro ht
    have h2 := (hiff.mp ht).2
    rw [h.1, h.2.1] at h2
    exact absurd h2 (by decide)
  exact Bool.eq_false_iff.mpr hne

/-! ## Exporter state (`ExporterState` from main.go)

The Go maps `map[string]*URLState` and `map[string]*CircuitBreaker` hold
pointers.  They are modelled as association lists from the string key to an
index into an explicit heap (`stateHeap` / `cbHeap`); an index plays the role
of a pointer, so pointer sharing and in-place mutation are representable. -/

/-- `URLState` from main.go (`ResponseTime float64` is modelled as `Int`; no
claim depends on its arithmetic). -/
structure URLState where
  url : String
  protocol : String
  lastCheck : Int
  lastSuccess : Int
  lastFailure : Int
  responseTime : Int
  isUp : Bool
  checkCount : Int
  failureCount : Int
deriving DecidableEq, Repr, Inhabited

/-- The map key `fmt.Sprintf("%s:%s", url, protocol)` used by both
`ExporterState` maps. -/
def mkKey (url protocol : String) : String := url ++ ":" ++ protocol

/-- `ExporterState` from main.go (the `sync.RWMutex` is dropped; the
embedding is sequential). -/
structure ExporterState where
  states : List (String × Nat)
  stateHeap : List URLState
  circuitBreakers : List (String × Nat)
  cbHeap : List CircuitBreaker
deriving DecidableEq, Repr

/-- `NewExporterState` from main.go: empty maps. -/
def NewExporterState : ExporterState :=
  { states := [], stateHeap := [], circuitBreakers := [], cbHeap := [] }

/-- The in-place mutation `UpdateState` performs on an existing `*URLState`. -/
def applyUpdate (s : URLState) (isUp : Bool) (responseTime now : Int) : URLState :=
  let s := { s with lastCheck := now, responseTime := responseTime, isUp := isUp,
                    checkCount := s.checkCount + 1 }
  if isUp then { s with lastSuccess := now }
  else { s with lastFailure := now, failureCount := s.failureCount + 1 }

/-- The fresh `&URLState{...}` that `UpdateState` allocates for a new key. -/
def newURLState (url protocol : String) (isUp : Bool) (responseTime now : Int) : URLState :=
  let s : URLState :=
    { url := url, protocol := protocol, lastCheck := now, lastSuccess := 0,
      lastFailure := 0, responseTime := responseTime, isUp := isUp,
      checkCount := 1, failureCount := 0 }
  if isUp then { s with lastSuccess := now }
  else { s with lastFailure := now, failureCount := 1 }

/-- `ExporterState.UpdateState` from main.go: mutate the existing `*URLState`
in place, or allocate a fresh one and bind the key to it. -/
def UpdateState (es : ExporterState) (url protocol : String) (isUp : Bool)
    (responseTime now : Int) : ExporterState :=
  let key := mkKey url protocol
  match es.states.lookup key with
  | some r =>
    { es with stateHeap :=
        es.stateHeap.set r (applyUpdate ((es.stateHeap[r]?).getD default) isUp responseTime now) }
  | none =>
    { es with states := (key, es.stateHeap.length) :: es.states,
              stateHeap := es.stateHeap ++ [newURLState url protocol isUp responseTime now] }

/-- `ExporterState.GetAllStates` from main.go: a fresh map holding the same
key-to-pointer entries (the `URLState` values themselves are shared). -/
def GetAllStates (es : ExporterState) : List (String × Nat) := es.states

/-- What a holder of the returned map sees for a key: follow the stored
pointer into the current heap. -/
def observeSnap (snap : List (String × Nat)) (heap : List URLState) (key : String) :
    Option URLState :=
  match snap.lookup key with
  | some r => heap[r]?
  | none => none

/-- `ExporterState.GetOrCreateCircuitBreaker` from main.go: return the
breaker bound to the key, or allocate `NewCircuitBreaker` and bind it. -/
def GetOrCreateCircuitBreaker (es : ExporterState) (url protocol : String)
    (threshold timeout : Int) : Nat × ExporterState :=
  let key := mkKey url protocol
  match es.circuitBreakers.lookup key with
  | some r => (r, es)
  | none =>
    (es.cbHeap.length,
     { es with circuitBreakers := (key, es.cbHeap.length) :: es.circuitBreakers,
               cbHeap := es.cbHeap ++ [NewCircuitBreaker threshold timeout] })

/-- One update applied to the empty exporter state: key `"u:tcp"` bound to
heap cell 0, recorded as up. -/
def esSnapBefore : ExporterState := UpdateState NewExporterState "u" "tcp" true 10 100

/-- A second update on the same key, flipping it to down; the heap cell
shared with any earlier snapshot is mutated in place. -/
def esSnapAfter : ExporterState := UpdateState esSnapBefore "u" "tcp" false 20 200

/-- Counterexample to C8 as stated: take the snapshot of `esSnapBefore`, then
run one more `UpdateState` for the same key.  The `URLState` observable
through the previously returned map changes (its `isUp` flips from `true` to
`false`), so the snapshot is not immutable: the map copy shares the
`*URLState` pointers with the live state. -/
theorem C8_snapshot_counterexample :
    observeSnap (GetAllStates esSnapBefore) esSnapBefore.stateHeap (mkKey "u" "tcp") ≠
      observeSnap (GetAllStates esSnapBefore) esSnapAfter.stateHeap (mkKey "u" "tcp") ∧
    (observeSnap (GetAllStates esSnapBefore) esSnapBefore.stateHeap (mkKey "u" "tcp")).map
      URLState.isUp = some true ∧
    (observeSnap (GetAllStates esSnapBefore) esSnapAfter.stateHeap (mkKey "u" "tcp")).map
      URLState.isUp = some false := by
  refine ⟨by decide, by decide, by decide⟩

/-- C8 (amended): `getAllStates` returns a copy of the key table, so keys it
does not hold never become observable through it; but the `URLState` values
are shared by pointer, so a subsequent `updateState` for a key present in
the snapshot mutates the cell observable through the previously returned
map (the observed value becomes the updated one, e.g. with the new `isUp`
and `lastCheck`). -/
theorem C8_snapshot_shares_pointers (es : ExporterState) (url protocol : String)
    (isUp : Bool) (rt now : Int) (r : Nat)
    (hl : es.states.lookup (mkKey url protocol) = some r)
    (hr : r < es.stateHeap.length) :
    (∀ k, (GetAllStates es).lookup k = none →
      observeSnap (GetAllStates es) (UpdateState es url protocol isUp rt now).stateHeap k =
        none) ∧
    observeSnap (GetAllStates es) (UpdateState es url protocol isUp rt now).stateHeap
      (mkKey url protocol) =
      some (applyUpdate ((es.stateHeap[r]?).getD default) isUp rt now) ∧
    (applyUpdate ((es.stateHeap[r]?).getD default) isUp rt now).isUp = isUp ∧
    (applyUpdate ((es.stateHeap[r]?).getD default) isUp rt now).lastCheck = now := by
  refine ⟨?_, ?_, ?_, ?_⟩
  · intro k hk
    simp [observeSnap, hk]
  · simp only [UpdateState, hl, GetAllStates, observeSnap]
    exact List.getElem?_set_eq_of_lt _ hr
  · cases isUp <;> rfl
  · cases isUp <;> rfl

/-- Witness for C8 (amended) on the concrete one-entry state: the second
update is observable through the first snapshot. -/
theorem C8_snapshot_shares_pointers_witness :
    observeSnap (GetAllStates esSnapBefore)
      (UpdateState esSnapBefore "u" "tcp" false 20 200).stateHeap (mkKey "u" "tcp") =
      some (applyUpdate ((esSnapBefore.stateHeap[0]?).getD default) false 20 200) :=
  (C8_snapshot_shares_pointers esSnapBefore "u" "tcp" false 20 200 0
    (by decide) (by decide)).2.1

/-- Counterexample to C9 as stated: the per-pair keys are the concatenations
`url ++ ":" ++ protocol`, so the distinct pairs `("a:b", "c")` and
`("a", "b:c")` collide; after creating a breaker for the first pair, the
get-or-create for the second pair returns the very same instance (heap index
0) and allocates nothing. -/
theorem C9_key_collision_counterexample :
    (("a:b", "c") ≠ (("a" : String), ("b:c" : String))) ∧
    mkKey "a:b" "c" = mkKey "a" "b:c" ∧
    (GetOrCreateCircuitBreaker
      (GetOrCreateCircuitBreaker NewExporterState "a:b" "c" 5 100).2
      "a" "b:c" 5 100).1 =
      (GetOrCreateCircuitBreaker NewExporterState "a:b" "c" 5 100).1 ∧
    (GetOrCreateCircuitBreaker
      (GetOrCreateCircuitBreaker NewExporterState "a:b" "c" 5 100).2
      "a" "b:c" 5 100).2.cbHeap.length = 1 := by
  refine ⟨by decide, by decide, by decide, by decide⟩

/-- C9 (amended): breaker and target-state instances are per *key*
(`url ++ ":" ++ protocol`), not per pair: a bound key always yields the same
instance (the breaker lookup returns it with no change to the state; a state
update mutates in place, rebinding nothing and allocating nothing); an
unbound key lazily allocates exactly one fresh breaker, or one fresh
`URLState`, and binds the key to it; existing bindings of both maps are never
removed or rebound by `GetOrCreateCircuitBreaker` or `UpdateState`.  Distinct
pairs sharing an instance is exactly key collision (see the counterexample). -/
theorem C9_instance_per_key (es : ExporterState) (url protocol : String)
    (threshold timeout : Int) (isUp : Bool) (rt now : Int) :
    (∀ r, es.circuitBreakers.lookup (mkKey url protocol) = some r →
      GetOrCreateCircuitBreaker es url protocol threshold timeout = (r, es)) ∧
    (es.circuitBreakers.lookup (mkKey url protocol) = none →
      (GetOrCreateCircuitBreaker es url protocol threshold timeout).1 =
        es.cbHeap.length ∧
      (GetOrCreateCircuitBreaker es url protocol threshold timeout).2.circuitBreakers.lookup
        (mkKey url protocol) = some es.cbHeap.length ∧
      (GetOrCreateCircuitBreaker es url protocol threshold timeout).2.cbHeap[es.cbHeap.length]? =
        some (NewCircuitBreaker threshold timeout)) ∧
    (∀ k r, es.circuitBreakers.lookup k = some r →
      (GetOrCreateCircuitBreaker es url protocol threshold timeout).2.circuitBreakers.lookup
        k = some r) ∧
    ((UpdateState es url protocol isUp rt now).circuitBreakers = es.circuitBreakers ∧
     (UpdateState es url protocol isUp rt now).cbHeap = es.cbHeap) ∧
    (∀ k r, es.states.lookup k = some r →
      (UpdateState es url protocol isUp rt now).states.lookup k = some r) ∧
    (es.states.lookup (mkKey url protocol) = none →
      (UpdateState es url protocol isUp rt now).states.lookup (mkKey url protocol) =
        some es.stateHeap.length ∧
      (UpdateState es url protocol isUp rt now).stateHeap[es.stateHeap.length]? =
        some (newURLState url protocol isUp rt now)) ∧
    (∀ r, es.states.lookup (mkKey url protocol) = some r →
      (UpdateState es url protocol isUp rt now).states = es.states ∧
      (UpdateState es url protocol isUp rt now).stateHeap.length =
        es.stateHeap.length) := by
  refine ⟨?_, ?_, ?_, ?_, ?_, ?_, ?_⟩
  · intro r h
    simp [GetOrCreateCircuitBreaker, h]
  · intro h
    refine ⟨by simp [GetOrCreateCircuitBreaker, h], ?_, ?_⟩
    · simp [GetOrCreateCircuitBreaker, h, List.lookup]
    · simp only [GetOrCreateCircuitBreaker, h]
      exact List.getElem?_concat_length _ _
  · intro k r h
    cases hcase : es.circuitBreakers.lookup (mkKey url protocol) with
    | some r2 => simp [GetOrCreateCircuitBreaker, hcase, h]
    | none =>
      have hne : (k == mkKey url protocol) = false := by
        rw [beq_eq_false_iff_ne]
        intro hk
        rw [hk, hcase] at h
        cases h
      simp [GetOrCreateCircuitBreaker, hcase, List.lookup, hne, h]
  · cases hcase : es.states.lookup (mkKey url protocol) <;>
      simp [UpdateState, hcase]
  · intro k r h
    cases hcase : es.states.lookup (mkKey url protocol) with
    | some r2 => simp [UpdateState, hcase, h]
    | none =>
      have hne : (k == mkKey url protocol) = false := by
        rw [beq_eq_false_iff_ne]
        intro hk
        rw [hk, hcase] at h
        cases h
      simp [UpdateState, hcase, List.lookup, hne, h]
  · intro h
    refine ⟨?_, ?_⟩
    · simp [UpdateState, h, List.lookup]
    · simp only [UpdateState, h]
      exact List.getElem?_concat_length _ _
  · intro r h
    simp [UpdateState, h]

/-- Witness for C9 (amended): after the breaker for `("h", "tcp")` is
created, a second get-or-create for the same pair returns the same heap
index 0 and leaves the state untouched; and the first `UpdateState` for the
unbound key `"h:tcp"` binds it to a fresh `URLState` at heap index 0. -/
theorem C9_instance_per_key_witness :
    (GetOrCreateCircuitBreaker
      (GetOrCreateCircuitBreaker NewExporterState "h" "tcp" 5 100).2
      "h" "tcp" 5 100 =
      (0, (GetOrCreateCircuitBreaker NewExporterState "h" "tcp" 5 100).2)) ∧
    (UpdateState NewExporterState "h" "tcp" true 3 4).states.lookup (mkKey "h" "tcp") =
      some 0 ∧
    (UpdateState NewExporterState "h" "tcp" true 3 4).stateHeap[0]? =
      some (newURLState "h" "tcp" true 3 4) := by
  have hcreate := (C9_instance_per_key NewExporterState "h" "tcp" 5 100
    true 3 4).2.2.2.2.2.1 (by decide)
  exact ⟨(C9_instance_per_key (GetOrCreateCircuitBreaker NewExporterState "h" "tcp" 5 100).2
    "h" "tcp" 5 100 true 0 0).1 0 (by decide), hcreate.1, hcreate.2⟩

/-! ## `Search.Check` (main.go), with the circuit breaker in front -/

/-- `strings.Split(url, ":")` on character lists. -/
def splitCharsOnColon : List Char → List (List Char)
  | [] => [[]]
  | c :: cs =>
    let rest := splitCharsOnColon cs
    if c = ':' then [] :: rest
    else
      match rest with
      | [] => [[c]]
      | g :: gs => (c :: g) :: gs

/-- `strings.Split(url, ":")`. -/
def splitOnColon (s : String) : List String :=
  (splitCharsOnColon s.data).map (fun l => { data := l })

/-- The address part `Check` extracts from a URL: `parts[0]` when the URL
embeds a port, the URL itself otherwise. -/
def checkAddress (url : String) : String :=
  match splitOnColon url with
  | [_] => url
  | p0 :: _ :: _ => p0
  | [] => url

/-- The port part `Check` extracts from a URL: `parts[1]` when the URL embeds
a port, the configured default port otherwise.  (`strings.Split` never
returns an empty slice; the `[]` case is unreachable.) -/
def checkPort (defaultPort url : String) : String :=
  match splitOnColon url with
  | [_] => defaultPort
  | _ :: p1 :: _ => p1
  | [] => defaultPort

/-- One call into package `metrics` (the record-style operations of
metrics.go), in emission order. -/
inductive MetricEvent where
  | recordCheck (url protocol : String) (success : Bool) (responseTime : Int)
  | recordCheckDuration (url protocol : String) (duration : Int)
  | recordRetryAttempt (url protocol : String)
  | recordCircuitBreakerState (url protocol : String) (state : Int)
  | recordCircuitBreakerFailureCount (url protocol : String) (count : Int)
  | recordCircuitBreakerTransition (url protocol : String) (transition : String)
deriving DecidableEq, Repr

/-- The fields of the `Search` struct that `Check` and the retry loop read
(display-only fields such as the warn/crit thresholds and the emoji output
are elided). -/
structure SearchParams where
  port : String
  protocol : String
  timeout : Int
  retryCount : Int
  retryDelay : Int
  circuitThreshold : Int
  circuitTimeout : Int
deriving DecidableEq, Repr

/-- Writing the current breaker value back through its pointer. -/
def setCB (es : ExporterState) (r : Nat) (cb : CircuitBreaker) : ExporterState :=
  { es with cbHeap := es.cbHeap.set r cb }

/-- What one `Search.Check` call produces: the recorded result state
(`SearchResult.State`), the reported response time, the number of dial
attempts performed, the metric events emitted, and the exporter state after
the call. -/
structure CheckOutput where
  state : String
  responseTime : Int
  dialCount : Nat
  events : List MetricEvent
  es : ExporterState
deriving DecidableEq, Repr

/-- `Search.Check` from main.go with a non-nil `exporterState` (the circuit
breaker path).  The clock starts at `now`; dial durations and backoff sleeps
advance it.  In the no-retry path the source computes `time.Since(startTime)`
*before* dialing, so the reported response time there is 0. -/
def Check (sp : SearchParams) (url : String) (es : ExporterState) (now : Int)
    (dial : Nat → DialStep) (jit : Nat → Int) : CheckOutput :=
  let address := checkAddress url
  let resPort := checkPort sp.port url
  let addr := address ++ ":" ++ resPort
  let g := GetOrCreateCircuitBreaker es address sp.protocol sp.circuitThreshold sp.circuitTimeout
  let cbRef := g.1
  let es1 := g.2
  let cb0 := (es1.cbHeap[cbRef]?).getD default
  let isRes := cb0.IsOpen now
  let es2 := setCB es1 cbRef isRes.2
  if isRes.1 then
    { state := "CircuitOpen", responseTime := 0, dialCount := 0,
      events := [MetricEvent.recordCheck addr sp.protocol false 0,
                 MetricEvent.recordCheckDuration addr sp.protocol 0],
      es := es2 }
  else
    let useRetry := 0 < sp.retryCount
    let r := retryWithExponentialBackoff sp.retryCount.toNat sp.retryDelay sp.timeout dial jit
    let rt := if useRetry then r.elapsed else 0
    let errOpt := if useRetry then r.err else (dial 0).err
    let dials := if useRetry then r.dialCount else 1
    let delays := if useRetry then r.delays else []
    let clock2 := now + (if useRetry then r.elapsed else (dial 0).dur)
    let retryEvents := delays.map (fun _ => MetricEvent.recordRetryAttempt address sp.protocol)
    let cb1 := (es2.cbHeap[cbRef]?).getD default
    let osp := cb1.GetState clock2
    let cb2 :=
      match errOpt with
      | some _ => osp.2.RecordFailure clock2
      | none => osp.2.RecordSuccess
    let nsp := cb2.GetState clock2
    let es3 := setCB es2 cbRef nsp.2
    let cbEvents :=
      [MetricEvent.recordCircuitBreakerState address sp.protocol (stateInt nsp.1),
       MetricEvent.recordCircuitBreakerFailureCount address sp.protocol nsp.2.failureCount] ++
      (if osp.1 ≠ nsp.1 then
        [MetricEvent.recordCircuitBreakerTransition address sp.protocol
          (stateName osp.1 ++ "_to_" ++ stateName nsp.1)]
       else [])
    match errOpt with
    | some _ =>
      { state := "Failed", responseTime := rt, dialCount := dials,
        events := retryEvents ++ cbEvents ++
          [MetricEvent.recordCheck addr sp.protocol false rt,
           MetricEvent.recordCheckDuration addr sp.protocol rt],
        es := es3 }
    | none =>
      { state := "Success", responseTime := rt, dialCount := dials,
        events := retryEvents ++ cbEvents ++
          [MetricEvent.recordCheck addr sp.protocol true rt,
           MetricEvent.recordCheckDuration addr sp.protocol rt],
        es := es3 }

/-- C7: a check performed while the target's breaker is `CircuitOpen` and
within its timeout performs no dial, records the result state
`"CircuitOpen"` — a distinct outcome kind from the transport-failure state
`"Failed"` — emits only the two check metrics (marked unsuccessful, with no
circuit-breaker gauge events that the dialing paths emit), and leaves the
breaker untouched. -/
theorem C7_circuit_open_rejection (sp : SearchParams) (url : String)
    (es : ExporterState) (now : Int) (dial : Nat → DialStep) (jit : Nat → Int)
    (r : Nat) (cb : CircuitBreaker)
    (hl : es.circuitBreakers.lookup (mkKey (checkAddress url) sp.protocol) = some r)
    (hc : es.cbHeap[r]? = some cb)
    (hOpen : cb.state = CircuitOpen)
    (hIn : now - cb.lastFailure < cb.timeout) :
    (Check sp url es now dial jit).dialCount = 0 ∧
    (Check sp url es now dial jit).state = "CircuitOpen" ∧
    "CircuitOpen" ≠ "Failed" ∧
    (Check sp url es now dial jit).events =
      [MetricEvent.recordCheck (checkAddress url ++ ":" ++ checkPort sp.port url)
        sp.protocol false 0,
       MetricEvent.recordCheckDuration (checkAddress url ++ ":" ++ checkPort sp.port url)
        sp.protocol 0] ∧
    (Check sp url es now dial jit).es.cbHeap[r]? = some cb := by
  have hg : GetOrCreateCircuitBreaker es (checkAddress url) sp.protocol
      sp.circuitThreshold sp.circuitTimeout = (r, es) := by
    simp [GetOrCreateCircuitBreaker, hl]
  have hIsOpen : cb.IsOpen now = (true, cb) := by
    simp only [CircuitBreaker.IsOpen, hOpen]
    rw [if_neg (by omega)]
  have hrlen : r < es.cbHeap.length := by
    by_contra hge
    rw [List.getElem?_eq_none (by omega)] at hc
    cases hc
  have hCheck : Check sp url es now dial jit =
      { state := "CircuitOpen", responseTime := 0, dialCount := 0,
        events := [MetricEvent.recordCheck
            (checkAddress url ++ ":" ++ checkPort sp.port url) sp.protocol false 0,
          MetricEvent.recordCheckDuration
            (checkAddress url ++ ":" ++ checkPort sp.port url) sp.protocol 0],
        es := setCB es r cb } := by
    simp only [Check, hg, hc, Option.getD_some, hIsOpen, if_true]
  refine ⟨by rw [hCheck], by rw [hCheck], by decide, by rw [hCheck], ?_⟩
  rw [hCheck]
  exact List.getElem?_set_eq_of_lt _ hrlen

/-- A concrete exporter state for the C7 witness: one breaker for key
`"h:tcp"`, open since instant 0 with timeout 100. -/
def esOpenBreaker : ExporterState :=
  { states := [], stateHeap := [],
    circuitBreakers := [("h:tcp", 0)],
    cbHeap := [⟨5, 100, 5, 0, CircuitOpen⟩] }

/-- Witness for C7: at instant 50 (within the timeout) the check of `"h"` is
rejected with state `"CircuitOpen"` and performs no dial. -/
theorem C7_circuit_open_rejection_witness :
    (Check ⟨"80", "tcp", 1000, 3, 100, 5, 100⟩ "h" esOpenBreaker 50
      (fun _ => ⟨some "refused", 1⟩) (fun _ => 0)).dialCount = 0 ∧
    (Check ⟨"80", "tcp", 1000, 3, 100, 5, 100⟩ "h" esOpenBreaker 50
      (fun _ => ⟨some "refused", 1⟩) (fun _ => 0)).state = "CircuitOpen" := by
  have h := C7_circuit_open_rejection ⟨"80", "tcp", 1000, 3, 100, 5, 100⟩ "h"
    esOpenBreaker 50 (fun _ => ⟨some "refused", 1⟩) (fun _ => 0) 0
    ⟨5, 100, 5, 0, CircuitOpen⟩ (by decide) (by decide) rfl (by decide)
  exact ⟨h.1, h.2.1⟩

end Urlchecker
